import Mathlib

/-!
Shallow embedding of youtube_downloader.py: format records, the video and
audio filters and sorts of list_formats and list_audio_formats, the
best-audio size estimator, the table presenter, the selection prompt, the
dependency check, the loading-animation state machine and the main flow.
Numeric metadata fields (height, fps, abr, filesize) are modelled as
naturals; a missing dictionary key is Option.none and Python truthiness of
a numeric field is "present and nonzero".
-/

namespace YoutubeDownloader

/-- Format record: the fields of a yt-dlp format dictionary that the
program reads. A field absent from the dictionary is none. -/
structure Fmt where
  format_id : String
  ext : Option String
  vcodec : Option String
  acodec : Option String
  height : Option Nat
  fps : Option Nat
  abr : Option Nat
  filesize : Option Nat
  format_note : Option String
deriving DecidableEq, Repr

/-- Metadata response of a successful extract_info call. -/
structure Info where
  title : String
  duration : Option Nat
  formats : List Fmt
deriving DecidableEq, Repr

/-- Python truthiness of an optional numeric field: present and nonzero. -/
def truthy (o : Option Nat) : Bool :=
  o.getD 0 != 0

/-- Height with the default 0 used by the sort key, as in x.get with default. -/
def heightD (f : Fmt) : Nat :=
  f.height.getD 0

/-- Filesize with the default 0 used by the sort key and the size column. -/
def sizeD (f : Fmt) : Nat :=
  f.filesize.getD 0

/-- Bitrate key of get_best_audio_size: x.get abr with default 0, or 0. -/
def abrKey (f : Fmt) : Nat :=
  f.abr.getD 0

/-- Video filter of list_formats: vcodec != none, truthy height, ext in
mp4 or webm, height at least 720, truthy filesize. -/
def videoPredB (f : Fmt) : Bool :=
  (f.vcodec != some "none") && truthy f.height &&
    (f.ext == some "mp4" || f.ext == some "webm") &&
    (720 ≤ heightD f) && truthy f.filesize

/-- Audio filter of list_audio_formats: acodec != none, vcodec == none,
truthy filesize, truthy abr. -/
def audioPredB (f : Fmt) : Bool :=
  (f.acodec != some "none") && (f.vcodec == some "none") &&
    truthy f.filesize && truthy f.abr

/-- Filter of get_best_audio_size: acodec != none, vcodec == none,
truthy filesize (no bitrate requirement). -/
def audioSizedPredB (f : Fmt) : Bool :=
  (f.acodec != some "none") && (f.vcodec == some "none") && truthy f.filesize

/-- Pure-audio records with known size, the pool get_best_audio_size picks from. -/
def audioSized (formats : List Fmt) : List Fmt :=
  formats.filter audioSizedPredB

/-- Sort key order of list_formats: key x = (minus height, filesize),
compared lexicographically, so a comes no later than b when a has larger
height, or equal height and no larger filesize. -/
def vidRel (a b : Fmt) : Prop :=
  heightD b < heightD a ∨ (heightD a = heightD b ∧ sizeD a ≤ sizeD b)

instance : DecidableRel vidRel := fun a b => by
  unfold vidRel
  exact inferInstance

instance : IsTotal Fmt vidRel := by
  constructor
  intro a b
  unfold vidRel
  omega

instance : IsTrans Fmt vidRel := by
  constructor
  intro a b c hab hbc
  unfold vidRel at hab hbc ⊢
  omega

/-- Sort key order of list_audio_formats: key x = (minus abr, filesize). -/
def audRel (a b : Fmt) : Prop :=
  abrKey b < abrKey a ∨ (abrKey a = abrKey b ∧ sizeD a ≤ sizeD b)

instance : DecidableRel audRel := fun a b => by
  unfold audRel
  exact inferInstance

instance : IsTotal Fmt audRel := by
  constructor
  intro a b
  unfold audRel
  omega

instance : IsTrans Fmt audRel := by
  constructor
  intro a b c hab hbc
  unfold audRel at hab hbc ⊢
  omega

/-- Filtered and sorted video list built by list_formats from a metadata
response. Python list.sort is stable, so a stable sort by the same total
preorder produces the same list. -/
def videoFormatsOf (formats : List Fmt) : List Fmt :=
  List.insertionSort vidRel (formats.filter videoPredB)

/-- Filtered and sorted audio list built by list_audio_formats. -/
def audioFormatsOf (formats : List Fmt) : List Fmt :=
  List.insertionSort audRel (formats.filter audioPredB)

/-- Python max with a key: the first element whose key is maximal. -/
def pyMaxBy (key : Fmt → Nat) : List Fmt → Option Fmt
  | [] => none
  | x :: xs => some (xs.foldl (fun acc y => if key acc < key y then y else acc) x)

/-- get_best_audio_size: filesize of the best-bitrate pure-audio format
with known size, or 0 when no such format exists. -/
def get_best_audio_size (formats : List Fmt) : Nat :=
  match pyMaxBy abrKey (audioSized formats) with
  | none => 0
  | some best => sizeD best

/-- list_formats reduced to its data flow: a failing fetch is caught and
yields the empty list; a successful fetch yields the filtered, sorted
video list. -/
def list_formats (fetch : Except String Info) : List Fmt :=
  match fetch with
  | .error _ => []
  | .ok info => videoFormatsOf info.formats

/-- list_audio_formats reduced to its data flow. -/
def list_audio_formats (fetch : Except String Info) : List Fmt :=
  match fetch with
  | .error _ => []
  | .ok info => audioFormatsOf info.formats

/-- Hundredths of a megabyte after rounding: round(bytesize / 2^20, 2)
rounds the quotient to the closest multiple of one hundredth, ties to
even. For byte counts below 2^53 the double division is exact (the
quotient is a dyadic with at most 53 mantissa bits), so rounding the
exact rational n * 100 / 2^20 reproduces it; a tie occurs exactly when
the remainder is 2^19. -/
def mbCents (n : Nat) : Nat :=
  let q := n * 100 / 1048576
  let r := n * 100 % 1048576
  if 524288 < r then q + 1
  else if r < 524288 then q
  else if q % 2 = 0 then q else q + 1

/-- Decimal printed for the rounded figure: CPython str of a float uses
the shortest digits that round-trip, so a value that is a whole number
of hundredths prints with trailing zeros dropped and at least one
fractional digit kept (100 prints 1.0, 12 prints 0.12, 50 prints 0.5). -/
def pyFloatRepr (cents : Nat) : String :=
  let whole := cents / 100
  let frac := cents % 100
  if frac = 0 then toString whole ++ ".0"
  else if frac % 10 = 0 then toString whole ++ "." ++ toString (frac / 10)
  else if frac < 10 then toString whole ++ ".0" ++ toString frac
  else toString whole ++ "." ++ toString frac

/-- Rendering of a byte count as megabytes: the f-string prints
str(round(bytesize / 2^20, 2)) followed by the MB suffix. Faithful to
the source for byte counts below 2^53, where the float division is
exact. -/
def mbRender (n : Nat) : String :=
  pyFloatRepr (mbCents n) ++ " MB"

/-- format_filesize: Unknown for a falsy byte count, otherwise the
megabyte rendering. -/
def format_filesize (bytesize : Nat) : String :=
  if bytesize = 0 then "Unknown" else mbRender bytesize

/-- One row of the video table as printed by the presenter. -/
structure VideoRow where
  index : Nat
  resolution : String
  fps : String
  codec : String
  container : String
  sizeStr : String
deriving DecidableEq, Repr

/-- Resolution cell: format_note or height or a question mark, with a
numeric height rendered with a p suffix; an empty format_note is falsy. -/
def resolutionCell (f : Fmt) : String :=
  let fromHeight :=
    match f.height with
    | some h => toString h ++ "p"
    | none => "?"
  match f.format_note with
  | some s => if s = "" then fromHeight else s
  | none => fromHeight

/-- One video row of the table in _print_video_formats_table: the size
column applies format_filesize to the row filesize plus the best-audio
size estimate. -/
def videoRow (i : Nat) (f : Fmt) (bestAudioSize : Nat) : VideoRow where
  index := i + 1
  resolution := resolutionCell f
  fps := match f.fps with | some n => toString n | none => "?"
  codec := (f.vcodec.getD "?").takeWhile (fun c => c != '.')
  container := f.ext.getD "?"
  sizeStr := format_filesize (sizeD f + bestAudioSize)

/-- Rows of the video table for a filtered list and an audio estimate. -/
def videoTableRows (formats : List Fmt) (bestAudioSize : Nat) : List VideoRow :=
  (formats.enum).map (fun p => videoRow p.1 p.2 bestAudioSize)

/-- Python strip: drop leading and trailing whitespace. -/
def pyStrip (s : String) : String :=
  String.mk (((s.data.dropWhile Char.isWhitespace).reverse.dropWhile
      Char.isWhitespace).reverse)

/-- Digits of a decimal numeral, none on a non-digit or on emptiness. -/
def digitsToNat (cs : List Char) : Option Nat :=
  if cs = [] then none
  else
    cs.foldl
      (fun acc c =>
        match acc with
        | none => none
        | some n => if c.isDigit then some (n * 10 + (c.toNat - 48)) else none)
      (some 0)

/-- Python int applied to a string: optional surrounding whitespace, an
optional sign, then decimal digits; anything else raises ValueError,
modelled as none. -/
def parsePyInt (s : String) : Option Int :=
  match (pyStrip s).data with
  | [] => none
  | '+' :: rest => (digitsToNat rest).map (fun n => (n : Int))
  | '-' :: rest => (digitsToNat rest).map (fun n => -(n : Int))
  | cs => (digitsToNat cs).map (fun n => (n : Int))

/-- Selection prompt of _get_user_format_choice driven by a list of
operator inputs: a non-integer or out-of-range input counts one invalid
report and the loop continues with the next input; a valid 1-based index
returns the format_id of the chosen record. Returns the selection (none
when the inputs run out while the loop is still prompting) and the
number of invalid reports printed before the loop ended. -/
def getUserFormatChoice (formats : List Fmt) : List String → Option String × Nat
  | [] => (none, 0)
  | s :: rest =>
    match parsePyInt s with
    | none =>
      let r := getUserFormatChoice formats rest
      (r.1, r.2 + 1)
    | some n =>
      if 1 ≤ n ∧ n ≤ (formats.length : Int) then
        ((formats.get? (n.toNat - 1)).map Fmt.format_id, 0)
      else
        let r := getUserFormatChoice formats rest
        (r.1, r.2 + 1)

/-- State of a LoadingAnimation together with its screen line: running is
the shared flag, thread is none before start and otherwise records
whether the background loop is still alive, lineClear tells whether the
animation line currently holds no animation text. -/
structure AnimState where
  message : String
  running : Bool
  thread : Option Bool
  lineClear : Bool
deriving DecidableEq, Repr

namespace LoadingAnimation

/-- Constructor of LoadingAnimation: not running, no thread yet. -/
def init (message : String) : AnimState :=
  { message := message, running := false, thread := none, lineClear := true }

/-- start: set the flag and spawn the animation thread. -/
def start (s : AnimState) : AnimState :=
  { s with running := true, thread := some true }

/-- One check of the while loop in _animate: a live thread that sees the
flag set draws a frame and loops; a live thread that sees the flag
cleared leaves the loop and terminates. Without a live thread nothing
happens. -/
def threadStep (s : AnimState) : AnimState :=
  match s.thread with
  | some true =>
    if s.running then { s with lineClear := false }
    else { s with thread := some false }
  | _ => s

/-- stop: clear the shared flag, join (the background context performs
joinSteps further loop checks before join returns; when thread is none
the join is skipped and no steps occur), then overwrite the animation
line with spaces. -/
def stop (s : AnimState) (joinSteps : Nat) : AnimState :=
  let s1 := { s with running := false }
  let s2 := threadStep^[joinSteps] s1
  { s2 with lineClear := true }

end LoadingAnimation

/-- Outcome of check_dependencies: the lines it prints and the exit code
it requests, none when the program continues. -/
structure DepCheck where
  messages : List String
  exitCode : Option Nat
deriving DecidableEq, Repr

/-- check_dependencies: a missing yt-dlp import is reported with pip
instructions and exits with code 1; a missing ffmpeg binary is reported
with a warning and install instructions and the program continues. -/
def check_dependencies (ytDlpAvailable ffmpegAvailable : Bool) : DepCheck :=
  if !ytDlpAvailable then
    { messages := ["Error: yt-dlp is not installed.",
        "Please install it using:", "  pip install yt-dlp"],
      exitCode := some 1 }
  else if !ffmpegAvailable then
    { messages := ["Warning: ffmpeg is not installed or not in PATH.",
        "Audio conversion may not work properly.",
        "To install ffmpeg:",
        "  Download from: https://ffmpeg.org/download.html",
        "  Or use: winget install ffmpeg"],
      exitCode := none }
  else { messages := [], exitCode := none }

/-- Outcome of one run of main under the top-level handler: the process
exit code, whether a metadata fetch (network access) was attempted, and
the messages printed by main itself. -/
structure MainOutcome where
  exitCode : Nat
  networkAttempted : Bool
  messages : List String
deriving DecidableEq, Repr

/-- main under the top-level handler, driven by the availability of the
two dependencies, the raw URL line, the fetch result and the selection
inputs: dependency check first, then the URL is stripped and an empty
result prints a message and returns (the process then exits 0) before
any fetch; otherwise the chosen workflow fetches metadata, and every
later failure is caught, so the process reaches exit code 0. -/
def runMain (ytDlpAvailable ffmpegAvailable audioOnly : Bool) (rawUrl : String)
    (fetch : Except String Info) (inputs : List String) : MainOutcome :=
  match (check_dependencies ytDlpAvailable ffmpegAvailable).exitCode with
  | some c =>
    { exitCode := c, networkAttempted := false,
      messages := (check_dependencies ytDlpAvailable ffmpegAvailable).messages }
  | none =>
    let url := pyStrip rawUrl
    if url = "" then
      { exitCode := 0, networkAttempted := false,
        messages := ["URL cannot be empty."] }
    else
      let fmts := if audioOnly then list_audio_formats fetch else list_formats fetch
      let _sel := getUserFormatChoice fmts inputs
      { exitCode := 0, networkAttempted := true, messages := [] }

/-- Spec reading of the C3 best-audio choice, for comparison with
get_best_audio_size: the maximum-bitrate pure-audio format with the size
filter ignored, its filesize (0 when absent or unknown). -/
def specBestAudioSize (formats : List Fmt) : Nat :=
  match pyMaxBy abrKey
      (formats.filter
        (fun f => (f.acodec != some "none") && (f.vcodec == some "none"))) with
  | none => 0
  | some best => sizeD best

/-- Format record with only an identifier, every other field absent. -/
def mkF (id : String) : Fmt :=
  ⟨id, none, none, none, none, none, none, none, none⟩

/-- Pure-audio record, 128 kbps, 100 bytes. -/
def audioA : Fmt :=
  { mkF "audioA" with
    acodec := some "opus"
    vcodec := some "none"
    abr := some 128
    filesize := some 100 }

/-- Pure-audio record, 128 kbps, 200 bytes: same bitrate as audioA. -/
def audioB : Fmt :=
  { mkF "audioB" with
    acodec := some "opus"
    vcodec := some "none"
    abr := some 128
    filesize := some 200 }

/-- Pure-audio record with the highest bitrate but no known filesize. -/
def audioNoSize : Fmt :=
  { mkF "audioNoSize" with
    acodec := some "mp4a"
    vcodec := some "none"
    abr := some 200 }

/-- Three-item format list for the selection-prompt scenario. -/
def demo3 : List Fmt :=
  [mkF "a", mkF "b", mkF "c"]

/-- Video record passing the video filter, filesize exactly one mebibyte. -/
def videoKnown : Fmt :=
  { mkF "videoKnown" with
    vcodec := some "avc1"
    height := some 1080
    ext := some "mp4"
    filesize := some 1048576 }

/-! Helper lemmas shared by the claim theorems. -/

/-- Propositional reading of the Boolean video filter. -/
theorem videoPredB_iff (f : Fmt) :
    videoPredB f = true ↔
      (f.vcodec ≠ some "none" ∧ f.height.getD 0 ≠ 0 ∧
        (f.ext = some "mp4" ∨ f.ext = some "webm") ∧
        720 ≤ heightD f ∧ f.filesize.getD 0 ≠ 0) := by
  unfold videoPredB truthy
  simp only [Bool.and_eq_true, Bool.or_eq_true, bne_iff_ne, beq_iff_eq,
    decide_eq_true_eq, ne_eq]
  tauto

/-- The fold inside pyMaxBy returns a member of the accumulator and the
list whose key dominates the accumulator key and every list key. -/
theorem foldlMax_spec (key : Fmt → Nat) :
    ∀ (xs : List Fmt) (acc : Fmt),
      (xs.foldl (fun a y => if key a < key y then y else a) acc) ∈ acc :: xs ∧
        key acc ≤
          key (xs.foldl (fun a y => if key a < key y then y else a) acc) ∧
        ∀ y ∈ xs,
          key y ≤ key (xs.foldl (fun a y => if key a < key y then y else a) acc)
  | [], acc => by simp
  | y :: ys, acc => by
    have ih := foldlMax_spec key ys (if key acc < key y then y else acc)
    simp only [List.foldl_cons]
    obtain ⟨hmem, hacc, hall⟩ := ih
    refine ⟨?_, ?_, ?_⟩
    · rcases List.mem_cons.mp hmem with h | h
      · rw [h]
        split
        · exact List.mem_cons_of_mem _ (List.mem_cons_self _ _)
        · exact List.mem_cons_self _ _
      · exact List.mem_cons_of_mem _ (List.mem_cons_of_mem _ h)
    · refine le_trans ?_ hacc
      split
      · omega
      · exact le_rfl
    · intro z hz
      rcases List.mem_cons.mp hz with h | h
      · subst h
        refine le_trans ?_ hacc
        split
        · exact le_rfl
        · omega
      · exact hall z h

/-- pyMaxBy returns none exactly on the empty list. -/
theorem pyMaxBy_eq_none_iff (key : Fmt → Nat) (l : List Fmt) :
    pyMaxBy key l = none ↔ l = [] := by
  cases l <;> simp [pyMaxBy]

/-- An element returned by pyMaxBy is in the list and its key dominates
every key of the list. -/
theorem pyMaxBy_spec (key : Fmt → Nat) (l : List Fmt) (m : Fmt)
    (h : pyMaxBy key l = some m) : m ∈ l ∧ ∀ y ∈ l, key y ≤ key m := by
  cases l with
  | nil => simp [pyMaxBy] at h
  | cons x xs =>
    simp only [pyMaxBy, Option.some.injEq] at h
    subst h
    obtain ⟨hmem, hacc, hall⟩ := foldlMax_spec key xs x
    refine ⟨hmem, ?_⟩
    intro y hy
    rcases List.mem_cons.mp hy with h | h
    · exact h ▸ hacc
    · exact hall y h

/-- get_best_audio_size is invariant under permutation of the format
list when the bitrate key is injective on the pure-audio pool. -/
theorem get_best_audio_size_perm (l l' : List Fmt) (hp : List.Perm l' l)
    (hinj : ∀ a ∈ audioSized l, ∀ b ∈ audioSized l,
      abrKey a = abrKey b → a = b) :
    get_best_audio_size l' = get_best_audio_size l := by
  have hf : List.Perm (audioSized l') (audioSized l) := hp.filter _
  unfold get_best_audio_size
  cases h1 : pyMaxBy abrKey (audioSized l') with
  | none =>
    cases h2 : pyMaxBy abrKey (audioSized l) with
    | none => rfl
    | some m =>
      rw [pyMaxBy_eq_none_iff] at h1
      rw [h1] at hf
      rw [List.nil_perm.mp hf] at h2
      simp [pyMaxBy] at h2
  | some m' =>
    cases h2 : pyMaxBy abrKey (audioSized l) with
    | none =>
      rw [pyMaxBy_eq_none_iff] at h2
      rw [h2] at hf
      rw [List.perm_nil.mp hf] at h1
      simp [pyMaxBy] at h1
    | some m =>
      obtain ⟨hm'mem, hm'max⟩ := pyMaxBy_spec _ _ _ h1
      obtain ⟨hmmem, hmmax⟩ := pyMaxBy_spec _ _ _ h2
      have hm'l : m' ∈ audioSized l := hf.mem_iff.mp hm'mem
      have hml' : m ∈ audioSized l' := hf.mem_iff.mpr hmmem
      have hkey : abrKey m' = abrKey m :=
        le_antisymm (hmmax m' hm'l) (hm'max m hml')
      rw [hinj m' hm'l m hmmem hkey]

/-- A string ending in the megabyte suffix is never the Unknown marker. -/
theorem append_MB_ne (s : String) : s ++ " MB" ≠ "Unknown" := by
  intro h
  have hB : ('B' : Char) ∈ (s ++ " MB").data := by
    rw [String.data_append]
    exact List.mem_append_right _ (by decide)
  rw [h] at hB
  revert hB
  decide

/-- The megabyte rendering is never the Unknown marker. -/
theorem mbRender_ne_unknown (n : Nat) : mbRender n ≠ "Unknown" :=
  append_MB_ne _

/-- Model validation: one mebibyte prints with the trailing zero
dropped, as CPython str of round(1.0, 2) does. -/
theorem mbRender_one_mebibyte : format_filesize 1048576 = "1.0 MB" :=
  rfl

/-- Model validation: an eighth of a mebibyte is the 0.125 tie and
rounds to even, printing 0.12, as CPython round and str do. -/
theorem mbRender_tie_to_even : format_filesize 131072 = "0.12 MB" :=
  rfl

/-- format_filesize prints Unknown exactly on a zero byte count. -/
theorem format_filesize_eq_unknown_iff (n : Nat) :
    format_filesize n = "Unknown" ↔ n = 0 := by
  unfold format_filesize
  split
  · simp [*]
  · simp only [*, iff_false]
    exact mbRender_ne_unknown n

/-- One loop check never changes the shared run flag. -/
theorem threadStep_running (s : AnimState) :
    (LoadingAnimation.threadStep s).running = s.running := by
  unfold LoadingAnimation.threadStep
  rcases s with ⟨m, r, t, c⟩
  rcases t with _ | b
  · rfl
  · rcases b <;> rcases r <;> rfl

/-- Iterated loop checks never change the shared run flag. -/
theorem threadStep_iterate_running (s : AnimState) (n : Nat) :
    (LoadingAnimation.threadStep^[n] s).running = s.running := by
  induction n with
  | zero => rfl
  | succ k ih => rw [Function.iterate_succ_apply', threadStep_running, ih]

/-- A loop check made while the run flag is cleared leaves no live thread. -/
theorem threadStep_kills (s : AnimState) (h : s.running = false) :
    (LoadingAnimation.threadStep s).thread ≠ some true := by
  unfold LoadingAnimation.threadStep
  rcases s with ⟨m, r, t, c⟩
  simp only at h
  subst h
  rcases t with _ | b
  · simp
  · rcases b <;> simp

/-! Claim theorems. -/

/-- Claim C1: the video list of list_formats contains exactly the
records of the metadata response that satisfy the video predicate
(vcodec not the absence marker, height present, container mp4 or webm,
height at least 720, filesize known); in particular no returned record
has resolution below 720 lines or an unlisted container. -/
theorem claim_C1_video_filter_exact (formats : List Fmt) :
    List.Perm (videoFormatsOf formats) (formats.filter videoPredB) ∧
    ∀ f, f ∈ videoFormatsOf formats ↔
      (f ∈ formats ∧ f.vcodec ≠ some "none" ∧ f.height.getD 0 ≠ 0 ∧
        (f.ext = some "mp4" ∨ f.ext = some "webm") ∧ 720 ≤ heightD f ∧
        f.filesize.getD 0 ≠ 0) := by
  constructor
  · exact List.perm_insertionSort vidRel _
  · intro f
    simp only [videoFormatsOf, List.mem_insertionSort, List.mem_filter,
      videoPredB_iff]

/-- Claim C1 witness: a qualifying record is returned on a concrete list. -/
theorem claim_C1_video_filter_exact_witness :
    videoKnown ∈ videoFormatsOf [videoKnown] :=
  ((claim_C1_video_filter_exact [videoKnown]).2 videoKnown).mpr (by decide)

/-- Claim C2: the filtered video list of list_formats is sorted by
descending height, and two records with equal height appear in
ascending filesize order. -/
theorem claim_C2_video_sorted (formats : List Fmt) :
    (videoFormatsOf formats).Pairwise
      (fun a b => heightD b ≤ heightD a ∧
        (heightD a = heightD b → sizeD a ≤ sizeD b)) := by
  have h := List.sorted_insertionSort vidRel (formats.filter videoPredB)
  refine List.Pairwise.imp ?_ h
  intro a b hab
  unfold vidRel at hab
  omega

/-- Claim C2 witness: the ordering property at a concrete list. -/
theorem claim_C2_video_sorted_witness :
    (videoFormatsOf [videoKnown]).Pairwise
      (fun a b => heightD b ≤ heightD a ∧
        (heightD a = heightD b → sizeD a ≤ sizeD b)) :=
  claim_C2_video_sorted [videoKnown]

/-- Claim C3 counterexample: the combined-size estimate is not
independent of the order of the input format list (two pure-audio
records with equal bitrate and different sizes swap the result), and
the best audio is not chosen ignoring the size filter (a top-bitrate
record without a known size is skipped by the code but chosen by the
spec reading). -/
theorem claim_C3_counterexample :
    get_best_audio_size [audioA, audioB] ≠
        get_best_audio_size [audioB, audioA] ∧
      specBestAudioSize [audioNoSize, audioA] ≠
        get_best_audio_size [audioNoSize, audioA] := by
  decide

/-- Claim C3 amended: the estimate of a video row equals the row
filesize plus get_best_audio_size of the response, get_best_audio_size
returns the filesize of a maximum-bitrate record among the pure-audio
records with known filesize, and the estimate is independent of the
order of the list whenever the bitrate determines the record on that
pool. -/
theorem claim_C3_amended (formats : List Fmt) (f : Fmt) (i : Nat) :
    (videoRow i f (get_best_audio_size formats)).sizeStr
        = format_filesize (sizeD f + get_best_audio_size formats) ∧
    (audioSized formats ≠ [] →
      ∃ m, m ∈ audioSized formats ∧ get_best_audio_size formats = sizeD m ∧
        ∀ y ∈ audioSized formats, abrKey y ≤ abrKey m) ∧
    (∀ l', List.Perm l' formats →
      (∀ a ∈ audioSized formats, ∀ b ∈ audioSized formats,
        abrKey a = abrKey b → a = b) →
      get_best_audio_size l' = get_best_audio_size formats) := by
  refine ⟨rfl, ?_, ?_⟩
  · intro hne
    cases h : pyMaxBy abrKey (audioSized formats) with
    | none => exact absurd ((pyMaxBy_eq_none_iff _ _).mp h) hne
    | some m =>
      obtain ⟨hmem, hmax⟩ := pyMaxBy_spec _ _ _ h
      refine ⟨m, hmem, ?_, hmax⟩
      unfold get_best_audio_size
      rw [h]
  · intro l' hp hinj
    exact get_best_audio_size_perm formats l' hp hinj

/-- Claim C3 amended witness: the characterization and the permutation
invariance at a concrete singleton pool. -/
theorem claim_C3_amended_witness :
    (∃ m, m ∈ audioSized [audioA] ∧ get_best_audio_size [audioA] = sizeD m ∧
      ∀ y ∈ audioSized [audioA], abrKey y ≤ abrKey m) ∧
    get_best_audio_size [audioA] = get_best_audio_size [audioA] :=
  ⟨(claim_C3_amended [audioA] (mkF "w") 0).2.1 (by decide),
    (claim_C3_amended [audioA] (mkF "w") 0).2.2 [audioA] (by decide) (by decide)⟩

/-- Claim C4: the selection prompt only ever returns the identifier of
a list element (a 1-based index inside the list bounds), and on the
input sequence x, 0, 5, 2 against a 3-item list it reports invalid
three times and returns the identifier of item 2. -/
theorem claim_C4_selection :
    (∀ (formats : List Fmt) (inputs : List String) (fid : String) (c : Nat),
        getUserFormatChoice formats inputs = (some fid, c) →
        ∃ i, ∃ h : i < formats.length, fid = (formats.get ⟨i, h⟩).format_id) ∧
    getUserFormatChoice demo3 ["x", "0", "5", "2"] = (some "b", 3) := by
  constructor
  · intro formats inputs
    induction inputs with
    | nil =>
      intro fid c h
      simp [getUserFormatChoice] at h
    | cons s rest ih =>
      intro fid c h
      cases hp : parsePyInt s with
      | none =>
        simp only [getUserFormatChoice, hp] at h
        cases hrec : getUserFormatChoice formats rest with
        | mk r c2 =>
          rw [hrec] at h
          have h1 : r = some fid := congrArg Prod.fst h
          exact ih fid c2 (by rw [hrec, h1])
      | some n =>
        simp only [getUserFormatChoice, hp] at h
        split at h
        · have h1 : (formats.get? (n.toNat - 1)).map Fmt.format_id = some fid :=
            congrArg Prod.fst h
          rw [Option.map_eq_some'] at h1
          obtain ⟨g, hg, hfid⟩ := h1
          rw [List.get?_eq_some] at hg
          obtain ⟨hb, hget⟩ := hg
          exact ⟨n.toNat - 1, hb, by rw [hget, hfid]⟩
        · cases hrec : getUserFormatChoice formats rest with
          | mk r c2 =>
            rw [hrec] at h
            have h1 : r = some fid := congrArg Prod.fst h
            exact ih fid c2 (by rw [hrec, h1])
  · decide

/-- Claim C4 witness: the returned identifier of the concrete scenario
is the identifier of an in-bounds element. -/
theorem claim_C4_selection_witness :
    ∃ i, ∃ h : i < demo3.length, "b" = (demo3.get ⟨i, h⟩).format_id :=
  claim_C4_selection.1 demo3 ["x", "0", "5", "2"] "b" 3 (by decide)

/-- Claim C5: a failing metadata fetch is caught and both listing
functions return the empty list instead of propagating the failure. -/
theorem claim_C5_fetch_failure (msg : String) :
    list_formats (Except.error msg) = [] ∧
      list_audio_formats (Except.error msg) = [] :=
  ⟨rfl, rfl⟩

/-- Claim C5 witness: the empty results at a concrete failure message. -/
theorem claim_C5_fetch_failure_witness :
    list_formats (Except.error "network unreachable") = [] ∧
      list_audio_formats (Except.error "network unreachable") = [] :=
  claim_C5_fetch_failure "network unreachable"

/-- Claim C6 counterexample: on a whitespace-only URL the program
reports the problem and returns without network access, but the
process exit code is 0, not 1 as the claim states. -/
theorem claim_C6_counterexample :
    (runMain true true false "   " (Except.error "boom") []).exitCode = 0 ∧
    (runMain true true false "   " (Except.error "boom") []).exitCode ≠ 1 ∧
    (runMain true true false "   " (Except.error "boom") []).networkAttempted
      = false := by
  decide

/-- Claim C6 amended: on an empty or whitespace-only URL the program
reports the problem and exits with code 0 without attempting any
network access. -/
theorem claim_C6_amended (ffmpegAvailable audioOnly : Bool) (rawUrl : String)
    (fetch : Except String Info) (inputs : List String)
    (h : pyStrip rawUrl = "") :
    runMain true ffmpegAvailable audioOnly rawUrl fetch inputs =
      { exitCode := 0, networkAttempted := false,
        messages := ["URL cannot be empty."] } := by
  cases ffmpegAvailable <;> simp [runMain, check_dependencies, h]

/-- Claim C6 amended witness: the outcome at a concrete whitespace URL. -/
theorem claim_C6_amended_witness :
    runMain true true false " " (Except.error "boom") [] =
      { exitCode := 0, networkAttempted := false,
        messages := ["URL cannot be empty."] } :=
  claim_C6_amended true false " " (Except.error "boom") [] (by decide)

/-- Claim C7 counterexample: a video row whose own size is known (one
mebibyte) while the best-audio component is unknown (estimate 0) is
rendered as the megabyte figure 1.0 MB, not as Unknown. -/
theorem claim_C7_counterexample :
    (videoRow 0 videoKnown (get_best_audio_size [])).sizeStr = "1.0 MB" ∧
    (videoRow 0 videoKnown (get_best_audio_size [])).sizeStr ≠ "Unknown" := by
  decide

/-- Claim C7 amended: the size cell of a video row is Unknown exactly
when both the row size and the best-audio estimate are unknown (zero),
and otherwise shows the megabyte rendering of their sum (str of
round(sum / 2^20, 2) plus the MB suffix, modelled exactly for sums
below 2^53 where the float division is exact). -/
theorem claim_C7_amended (i : Nat) (f : Fmt) (bestAudioSize : Nat) :
    ((videoRow i f bestAudioSize).sizeStr = "Unknown" ↔
      (sizeD f = 0 ∧ bestAudioSize = 0)) ∧
    (sizeD f + bestAudioSize ≠ 0 → sizeD f + bestAudioSize < 2 ^ 53 →
      (videoRow i f bestAudioSize).sizeStr
        = mbRender (sizeD f + bestAudioSize)) := by
  constructor
  · have hdef : (videoRow i f bestAudioSize).sizeStr
        = format_filesize (sizeD f + bestAudioSize) := rfl
    rw [hdef, format_filesize_eq_unknown_iff]
    omega
  · intro hne _
    show format_filesize (sizeD f + bestAudioSize) = _
    unfold format_filesize
    rw [if_neg hne]

/-- Claim C7 amended witness: a row with known size and zero audio
estimate shows the megabyte rendering. -/
theorem claim_C7_amended_witness :
    (videoRow 0 videoKnown 0).sizeStr = mbRender (sizeD videoKnown + 0) :=
  (claim_C7_amended 0 videoKnown 0).2 (by decide) (by decide)

/-- Claim C8 counterexample: with the transcoding binary absent the
dependency check does not request exit code 1; it only warns and lets
the process continue. -/
theorem claim_C8_counterexample :
    (check_dependencies true false).exitCode = none ∧
    (check_dependencies true false).exitCode ≠ some 1 := by
  decide

/-- Claim C8 amended: a missing extraction library is reported with pip
remediation instructions and exits with code 1; a missing transcoding
binary is reported with install instructions and the process
continues without exiting. -/
theorem claim_C8_amended (ffmpegAvailable : Bool) :
    ((check_dependencies false ffmpegAvailable).exitCode = some 1 ∧
      "  pip install yt-dlp" ∈
        (check_dependencies false ffmpegAvailable).messages) ∧
    (check_dependencies true ffmpegAvailable).exitCode = none ∧
    (ffmpegAvailable = false →
      "Warning: ffmpeg is not installed or not in PATH." ∈
        (check_dependencies true ffmpegAvailable).messages) := by
  cases ffmpegAvailable with
  | false => exact ⟨⟨rfl, by decide⟩, rfl, fun _ => by decide⟩
  | true => exact ⟨⟨rfl, by decide⟩, rfl, fun h => nomatch h⟩

/-- Claim C8 amended witness: the warning appears when only the
transcoding binary is missing. -/
theorem claim_C8_amended_witness :
    "Warning: ffmpeg is not installed or not in PATH." ∈
      (check_dependencies true false).messages :=
  (claim_C8_amended false).2.2 rfl

/-- Claim C9: after stop returns (the flag cleared and the join having
waited for at least one further loop check, after which the background
context has necessarily left its loop) the background context is no
longer running and the animation line has been erased. -/
theorem claim_C9_stop (s : AnimState) (joinSteps : Nat) (h : 1 ≤ joinSteps) :
    (LoadingAnimation.stop s joinSteps).thread ≠ some true ∧
    (LoadingAnimation.stop s joinSteps).lineClear = true := by
  obtain ⟨k, rfl⟩ : ∃ k, joinSteps = k + 1 := ⟨joinSteps - 1, by omega⟩
  refine ⟨?_, rfl⟩
  show (LoadingAnimation.threadStep^[k + 1]
      { s with running := false }).thread ≠ some true
  rw [Function.iterate_succ_apply']
  exact threadStep_kills _ (by rw [threadStep_iterate_running])

/-- Claim C9 witness: stopping a freshly started indicator after one
join step leaves no live context and a blank line. -/
theorem claim_C9_stop_witness :
    (LoadingAnimation.stop
        (LoadingAnimation.start (LoadingAnimation.init "Fetching options"))
        1).thread ≠ some true ∧
    (LoadingAnimation.stop
        (LoadingAnimation.start (LoadingAnimation.init "Fetching options"))
        1).lineClear = true :=
  claim_C9_stop _ 1 (by decide)

/-- Claim C10: stopping an indicator that was never started terminates
normally for any number of join steps: no thread exists so no loop
check happens, and the call only clears the line, leaving the Idle
state (flag cleared, no thread). -/
theorem claim_C10_stop_unstarted (message : String) (joinSteps : Nat) :
    LoadingAnimation.stop (LoadingAnimation.init message) joinSteps =
      { message := message, running := false, thread := none,
        lineClear := true } := by
  have hfix : ∀ n, LoadingAnimation.threadStep^[n]
      { LoadingAnimation.init message with running := false } =
        { LoadingAnimation.init message with running := false } := by
    intro n
    induction n with
    | zero => rfl
    | succ k ih =>
      rw [Function.iterate_succ_apply', ih]
      rfl
  show { LoadingAnimation.threadStep^[joinSteps]
      { LoadingAnimation.init message with running := false } with
        lineClear := true } =
      { message := message, running := false, thread := none,
        lineClear := true }
  rw [hfix]
  rfl

/-- Claim C10 witness: the Idle outcome at a concrete message and step
count. -/
theorem claim_C10_stop_unstarted_witness :
    LoadingAnimation.stop (LoadingAnimation.init "Fetching options") 3 =
      { message := "Fetching options", running := false, thread := none,
        lineClear := true } :=
  claim_C10_stop_unstarted "Fetching options" 3

end YoutubeDownloader
